import Mathlib

/-!
Shallow embedding of the rendering core of `portfolio-builder` (src/main.go).

Dynamic YAML/Go `interface{}` values are modelled by the inductive `Value`;
Go maps (`map[string]interface{}`) are modelled as association lists together
with a lookup/assignment pair (`lookupKV` / `insertKV`) whose assignment
semantics replaces the existing binding for a key (as Go map assignment does).
Since Go map iteration order is unspecified, functions that iterate a map take
the entry list explicitly; claims about iteration order quantify over those
lists.  The template directory and the template engine (`html/template`) are
abstracted by `TmplEnv`: which template files exist, whether `ParseFiles`
succeeds, and what `Execute` / `ExecuteTemplate` produce (`none` models an
execution error).  The output directory is the state `FS`, an association list
from output path to file content; `os.Create` is a write of the empty string
(truncation), a later successful execution overwrites it with the rendered
content.
-/

namespace PortfolioBuilder

/-- A dynamic value as produced by decoding YAML into Go `interface{}`. -/
inductive Value where
  | vnull : Value
  | vbool : Bool → Value
  | vint  : Int → Value
  | vstr  : String → Value
  | vlist : List Value → Value
  | vmap  : List (String × Value) → Value

/-- Lookup in an association list modelling a Go map (`m[k]`, first binding). -/
def lookupKV {α : Type} (k : String) : List (String × α) → Option α
  | [] => none
  | (k', v) :: rest => if k' = k then some v else lookupKV k rest

/-- Go map assignment `m[k] = v`: replace the binding if present, else append. -/
def insertKV {α : Type} (k : String) (v : α) : List (String × α) → List (String × α)
  | [] => [(k, v)]
  | (k', v') :: rest => if k' = k then (k, v) :: rest else (k', v') :: insertKV k v rest

/-- Key lookup inside a `Value`, when the value is a mapping. -/
def ctxLookup (v : Value) (k : String) : Option Value :=
  match v with
  | Value.vmap m => lookupKV k m
  | _ => none

/-- The output directory state: output path ↦ current file content. -/
abbrev FS := List (String × String)

/-- Write (create/truncate or overwrite) a file in the output directory. -/
def fsWrite (fs : FS) (path content : String) : FS :=
  insertKV path content fs

/-- Read a file of the output directory, `none` when absent. -/
def fsLookup (fs : FS) (path : String) : Option String :=
  lookupKV path fs

/-- Abstraction of the template directory and of Go's `html/template` engine.
`tmplExists` says which files are on disk, `parseOk` whether their combined
`ParseFiles` succeeds (given they all exist), `executeTemplate`/`execute`
model `tmpl.ExecuteTemplate(w, entry, data)` / `tmpl.Execute(w, data)` — the
result is the rendered content, `none` an execution error.  `createOk` says
whether `os.Create` succeeds at an output path. -/
structure TmplEnv where
  tmplExists : String → Bool
  parseOk : List String → Bool
  executeTemplate : List String → String → Value → Option String
  execute : List String → Value → Option String
  createOk : String → Bool

/-- The files handed to `template.ParseFiles` for a page or collection named
`name`: `base.html` first when `config.Base != nil` (src/main.go:144-149,
208-213). -/
def templateFiles (base : Option (List (String × Value))) (name : String) : List String :=
  match base with
  | some _ => ["base.html", name ++ ".html"]
  | none => [name ++ ".html"]

/-- Whether `template.ParseFiles` succeeds: every file must exist on disk and
the combined parse must succeed. -/
def parseFiles (env : TmplEnv) (files : List String) : Bool :=
  files.all env.tmplExists && env.parseOk files

/-- The render data built by `generatePages` when `config.Base != nil`
(src/main.go:164-173): start from `{"base": config.Base}`, then copy every
key of the page context into the top level when that context is a mapping. -/
def buildData (b : List (String × Value)) (ctx : Value) : List (String × Value) :=
  let data : List (String × Value) := [("base", Value.vmap b)]
  match ctx with
  | Value.vmap pageCtx => pageCtx.foldl (fun d kv => insertKV kv.1 kv.2 d) data
  | _ => data

/-- The complete render context a page's template execution receives
(src/main.go:164-178): the merged map when `base` is present, the raw page
context otherwise. -/
def pageRenderData (base : Option (List (String × Value))) (ctx : Value) : Value :=
  match base with
  | some b => Value.vmap (buildData b ctx)
  | none => ctx

/-- Template execution for one page (src/main.go:164-178): with a base,
`tmpl.ExecuteTemplate(f, "base.html", data)` on the merged data; without,
`tmpl.Execute(f, config.Pages[pageName])` on the raw context. -/
def pageExec (env : TmplEnv) (base : Option (List (String × Value)))
    (files : List String) (ctx : Value) : Option String :=
  match base with
  | some b => env.executeTemplate files "base.html" (Value.vmap (buildData b ctx))
  | none => env.execute files ctx

/-- Errors returned by the two generators (the `fmt.Errorf` sites); `main`
terminates fatally on any of them (src/main.go:66-73). -/
inductive RenderErr where
  | parsePage (page : String)
  | createPage (path : String)
  | execPage (page : String)
  | parseCollection (collection : String)
  | createItem (path : String)
  | execItem (outputFile : String)
deriving DecidableEq

/-- A Go runtime panic raised by a failing single-value type assertion. -/
inductive GoPanic where
  | interfaceConversion
deriving DecidableEq

/-- How a generator run ends: normal return `nil`, an error returned to `main`
(which then exits fatally), or a runtime panic. -/
inductive Outcome where
  | ok
  | fatal (e : RenderErr)
  | panicked
deriving DecidableEq

/-- `generatePages` (src/main.go:134-188) over the page entries in a given
iteration order, threading the output directory state.  Per page: parse the
template files (error returned on failure, before any file is created), then
`os.Create` the output file (truncating it), then execute; an execution error
is returned with the created file left behind. -/
def generatePages (env : TmplEnv) (base : Option (List (String × Value))) :
    List (String × Value) → FS → FS × Outcome
  | [], fs => (fs, Outcome.ok)
  | (pageName, ctx) :: rest, fs =>
    let files := templateFiles base pageName
    if parseFiles env files then
      let outputFile := pageName ++ ".html"
      if env.createOk outputFile then
        let fs1 := fsWrite fs outputFile ""
        match pageExec env base files ctx with
        | some rendered => generatePages env base rest (fsWrite fs1 outputFile rendered)
        | none => (fs1, Outcome.fatal (RenderErr.execPage pageName))
      else (fs, Outcome.fatal (RenderErr.createPage outputFile))
    else (fs, Outcome.fatal (RenderErr.parsePage pageName))

/-- The `items` extraction of `generateCollections` (src/main.go:197-200):
`collectionData.(map[string]interface{})["items"].([]interface{})`.  Only the
outer `.([]interface{})` is in the comma-ok form, so a collection value that
is not a mapping makes the inner assertion panic; a mapping whose `items` is
absent or not a sequence yields `ok = false` (the collection is skipped). -/
def getItems (collectionData : Value) : Except GoPanic (Option (List Value)) :=
  match collectionData with
  | Value.vmap m =>
    match lookupKV "items" m with
    | some (Value.vlist l) => Except.ok (some l)
    | _ => Except.ok none
  | _ => Except.error GoPanic.interfaceConversion

/-- The `output_file` extraction for an item (src/main.go:221-229):
`item.(map[string]interface{})["output_file"]` panics when the item is not a
mapping (the comma-ok belongs to the map index); an absent key or a non-string
value yields `ok = false` (the item is skipped). -/
def outputFileOf (item : Value) : Except GoPanic (Option String) :=
  match item with
  | Value.vmap m =>
    match lookupKV "output_file" m with
    | none => Except.ok none
    | some v =>
      match v with
      | Value.vstr s => Except.ok (some s)
      | _ => Except.ok none
  | _ => Except.error GoPanic.interfaceConversion

/-- The render data built for a collection item when `config.Base != nil`
(src/main.go:240-249): start from `{"base": config.Base}`, then copy every key
of the item into the top level when the item is a mapping. -/
def itemBuildData (b : List (String × Value)) (item : Value) : List (String × Value) :=
  let data : List (String × Value) := [("base", Value.vmap b)]
  match item with
  | Value.vmap pageCtx => pageCtx.foldl (fun d kv => insertKV kv.1 kv.2 d) data
  | _ => data

/-- The complete render context a collection item's template execution
receives (src/main.go:240-253). -/
def itemRenderData (base : Option (List (String × Value))) (item : Value) : Value :=
  match base with
  | some b => Value.vmap (itemBuildData b item)
  | none => item

/-- Template execution for one collection item (src/main.go:240-253). -/
def itemExec (env : TmplEnv) (base : Option (List (String × Value)))
    (files : List String) (item : Value) : Option String :=
  match base with
  | some b => env.executeTemplate files "base.html" (Value.vmap (itemBuildData b item))
  | none => env.execute files item

/-- The inner item loop of `generateCollections` (src/main.go:220-260), with a
trace of the `log.Println("Generated collection item:", ...)` events (output
file name and rendered content, in emission order). -/
def renderItems (env : TmplEnv) (base : Option (List (String × Value)))
    (files : List String) :
    List Value → FS → List (String × String) → FS × List (String × String) × Outcome
  | [], fs, tr => (fs, tr, Outcome.ok)
  | item :: rest, fs, tr =>
    match outputFileOf item with
    | Except.error _ => (fs, tr, Outcome.panicked)
    | Except.ok none => renderItems env base files rest fs tr
    | Except.ok (some outputFileName) =>
      if env.createOk outputFileName then
        let fs1 := fsWrite fs outputFileName ""
        match itemExec env base files item with
        | some rendered =>
          renderItems env base files rest (fsWrite fs1 outputFileName rendered)
            (tr ++ [(outputFileName, rendered)])
        | none => (fs1, tr, Outcome.fatal (RenderErr.execItem outputFileName))
      else (fs, tr, Outcome.fatal (RenderErr.createItem outputFileName))

/-- `generateCollections` (src/main.go:190-264) over the collection entries in
a given iteration order.  A `nil` collections map returns immediately
(src/main.go:191-193), which coincides with the empty entry list.  Per
collection: extract `items` (skip the collection when the shape check fails,
panic when the value is not a mapping), parse the collection's template files,
then render the items in sequence order. -/
def generateCollections (env : TmplEnv) (base : Option (List (String × Value))) :
    List (String × Value) → FS → List (String × String) →
      FS × List (String × String) × Outcome
  | [], fs, tr => (fs, tr, Outcome.ok)
  | (collectionName, collectionData) :: rest, fs, tr =>
    match getItems collectionData with
    | Except.error _ => (fs, tr, Outcome.panicked)
    | Except.ok none => generateCollections env base rest fs tr
    | Except.ok (some itemsList) =>
      let files := templateFiles base collectionName
      if parseFiles env files then
        match renderItems env base files itemsList fs tr with
        | (fs1, tr1, Outcome.ok) => generateCollections env base rest fs1 tr1
        | (fs1, tr1, outc) => (fs1, tr1, outc)
      else (fs, tr, Outcome.fatal (RenderErr.parseCollection collectionName))

/-- The render sequencing of `main` (src/main.go:66-73): `generatePages`, and
only when it returns `nil`, `generateCollections`; any error makes `main`
terminate fatally without running the later stages. -/
def generateSite (env : TmplEnv) (base : Option (List (String × Value)))
    (pages cols : List (String × Value)) (fs : FS) :
    FS × List (String × String) × Outcome :=
  match generatePages env base pages fs with
  | (fs1, Outcome.ok) => generateCollections env base cols fs1 []
  | (fs1, outc) => (fs1, [], outc)

/-- One entry visited by `filepath.WalkDir` over the assets folder, abstracted
to the outcomes the callback (src/main.go:278-301) can observe: the walk hands
the callback an error, a directory (with the result of `os.MkdirAll`), or a
file (with the results of `os.ReadFile` and `os.WriteFile`). -/
inductive AssetEntry where
  | errEntry (msg : String)
  | dirEntry (mkdirOk : Bool)
  | fileEntry (readOk : Bool) (writeOk : Bool)

/-- The callback's result on one entry (src/main.go:278-301). -/
def walkEntry : AssetEntry → Option String
  | AssetEntry.errEntry msg => some msg
  | AssetEntry.dirEntry mkdirOk => if mkdirOk then none else some "mkdir"
  | AssetEntry.fileEntry readOk writeOk =>
    if readOk then (if writeOk then none else some "write") else some "read"

/-- `filepath.WalkDir` over the assets folder: the first callback error aborts
the walk and becomes WalkDir's result. -/
def walkAssets : List AssetEntry → Option String
  | [] => none
  | e :: rest =>
    match walkEntry e with
    | some msg => some msg
    | none => walkAssets rest

/-- The assets source folder as seen by `copyAssets`: whether
`<templateDir>/assets` exists, and the walk entries when it does. -/
structure AssetsEnv where
  srcExists : Bool
  entries : List AssetEntry

/-- `copyAssets` (src/main.go:266-309): a missing source folder is skipped;
otherwise the folder is walked, but the WalkDir error is only inspected to
decide whether to log "Copied folder:" — the function ends with `return nil`
on every path, so the walk error is never propagated to the caller. -/
def copyAssets (a : AssetsEnv) : Option String :=
  if a.srcExists then
    let _err := walkAssets a.entries
    none
  else none

/-- One page renders successfully: its templates parse, its output file can be
created, and its execution succeeds. -/
def pageOk (env : TmplEnv) (base : Option (List (String × Value)))
    (pageName : String) (ctx : Value) : Prop :=
  parseFiles env (templateFiles base pageName) = true ∧
    env.createOk (pageName ++ ".html") = true ∧
    pageExec env base (templateFiles base pageName) ctx ≠ none

/-- The content a successfully rendered page ends up with. -/
def pageContent (env : TmplEnv) (base : Option (List (String × Value)))
    (pageName : String) (ctx : Value) : String :=
  (pageExec env base (templateFiles base pageName) ctx).getD ""

/-- One item is processed without error or panic: it is skipped, or it renders
successfully. -/
def itemOk (env : TmplEnv) (base : Option (List (String × Value)))
    (files : List String) (item : Value) : Prop :=
  match outputFileOf item with
  | Except.error _ => False
  | Except.ok none => True
  | Except.ok (some name) =>
    env.createOk name = true ∧ itemExec env base files item ≠ none

/-- One collection is processed without error or panic. -/
def colOk (env : TmplEnv) (base : Option (List (String × Value)))
    (c : String × Value) : Prop :=
  match getItems c.2 with
  | Except.error _ => False
  | Except.ok none => True
  | Except.ok (some itemsList) =>
    parseFiles env (templateFiles base c.1) = true ∧
      ∀ i ∈ itemsList, itemOk env base (templateFiles base c.1) i

/-- The output file an item targets, when it will not be skipped. -/
def itemTarget (item : Value) : Option String :=
  match outputFileOf item with
  | Except.ok (some name) => some name
  | _ => none

/-- The content a successfully rendered item ends up with. -/
def itemContent (env : TmplEnv) (base : Option (List (String × Value)))
    (files : List String) (item : Value) : String :=
  (itemExec env base files item).getD ""

/-- The item list of a collection entry (empty when the collection would be
skipped or would panic). -/
def colItemsOf (c : String × Value) : List Value :=
  match getItems c.2 with
  | Except.ok (some itemsList) => itemsList
  | _ => []

/-- All output paths a collection's items target. -/
def colTargets (c : String × Value) : List String :=
  (colItemsOf c).filterMap itemTarget

/-- The content found at output path `q` after rendering `items` in order:
the last item targeting `q` wins; `none` when no item targets `q`. -/
def itemsContentAt (env : TmplEnv) (base : Option (List (String × Value)))
    (files : List String) (q : String) : List Value → Option String
  | [] => none
  | item :: rest =>
    match itemsContentAt env base files q rest with
    | some c => some c
    | none =>
      if itemTarget item = some q then some (itemContent env base files item) else none

/-- An environment where every template exists, parses, and renders. -/
def envAllOk : TmplEnv where
  tmplExists := fun _ => true
  parseOk := fun _ => true
  executeTemplate := fun _ _ _ => some "RENDERED"
  execute := fun _ _ => some "RAW"
  createOk := fun _ => true

/-- An environment whose rendered content reveals which template file was
used (the head of the parsed file list). -/
def envHeadContent : TmplEnv where
  tmplExists := fun _ => true
  parseOk := fun _ => true
  executeTemplate := fun files _ _ => some (files.headD "")
  execute := fun files _ => some (files.headD "")
  createOk := fun _ => true

/-- An environment where parsing succeeds but every execution fails. -/
def envExecFails : TmplEnv where
  tmplExists := fun _ => true
  parseOk := fun _ => true
  executeTemplate := fun _ _ _ => none
  execute := fun _ _ => none
  createOk := fun _ => true

/-- An environment with an empty template directory. -/
def envNoTemplates : TmplEnv where
  tmplExists := fun _ => false
  parseOk := fun _ => true
  executeTemplate := fun _ _ _ => some "RENDERED"
  execute := fun _ _ => some "RAW"
  createOk := fun _ => true

/-- A well-formed one-item collection value writing to `b1.html`. -/
def colGood : Value :=
  Value.vmap [("items", Value.vlist [Value.vmap [("output_file", Value.vstr "b1.html")]])]

/-- A one-item collection value writing to `x.html`. -/
def colToX : Value :=
  Value.vmap [("items", Value.vlist [Value.vmap [("output_file", Value.vstr "x.html")]])]

theorem lookupKV_insertKV {α : Type} (k k' : String) (v : α) (l : List (String × α)) :
    lookupKV k (insertKV k' v l) = if k' = k then some v else lookupKV k l := by
  induction l with
  | nil => simp [insertKV, lookupKV]
  | cons hd tl ih =>
    obtain ⟨a, b⟩ := hd
    simp only [insertKV]
    by_cases h1 : a = k'
    · simp only [if_pos h1, lookupKV]
      by_cases h2 : k' = k
      · simp [h2]
      · simp [h2, h1, lookupKV]
    · simp only [if_neg h1, lookupKV, ih]
      by_cases h2 : a = k
      · have h3 : ¬ k' = k := fun hc => h1 (h2.trans hc.symm)
        simp [h2, h3]
      · simp [h2]

theorem lookupKV_eq_none_of_not_mem {α : Type} (k : String) (l : List (String × α))
    (h : k ∉ l.map Prod.fst) : lookupKV k l = none := by
  induction l with
  | nil => rfl
  | cons hd tl ih =>
    obtain ⟨a, b⟩ := hd
    simp only [List.map_cons, List.mem_cons] at h
    push_neg at h
    rw [lookupKV, if_neg (fun hh => h.1 hh.symm)]
    exact ih h.2

theorem lookupKV_foldl_insert {α : Type} (k : String) (m : List (String × α))
    (hnd : (m.map Prod.fst).Nodup) (d0 : List (String × α)) :
    lookupKV k (m.foldl (fun d kv => insertKV kv.1 kv.2 d) d0) =
      match lookupKV k m with
      | some v => some v
      | none => lookupKV k d0 := by
  induction m generalizing d0 with
  | nil => simp [lookupKV]
  | cons hd tl ih =>
    obtain ⟨a, v⟩ := hd
    simp only [List.map_cons, List.nodup_cons] at hnd
    simp only [List.foldl_cons]
    rw [ih hnd.2]
    by_cases h : a = k
    · subst h
      have hnone : lookupKV a tl = none := lookupKV_eq_none_of_not_mem a tl hnd.1
      simp [hnone, lookupKV, lookupKV_insertKV]
    · cases hkv : lookupKV k tl with
      | some w => simp [lookupKV, h, hkv]
      | none => simp [lookupKV, h, hkv, lookupKV_insertKV]

theorem fsLookup_fsWrite (fs : FS) (p c q : String) :
    fsLookup (fsWrite fs p c) q = if p = q then some c else fsLookup fs q :=
  lookupKV_insertKV q p c fs

theorem appendHtml_inj {a b : String} (h : a ++ ".html" = b ++ ".html") : a = b := by
  have hd := congrArg String.data h
  simp only [String.data_append] at hd
  exact String.ext (List.append_cancel_right hd)

theorem generatePages_append (env : TmplEnv) (base : Option (List (String × Value)))
    (l1 l2 : List (String × Value)) (fs : FS) :
    generatePages env base (l1 ++ l2) fs =
      match generatePages env base l1 fs with
      | (fs1, Outcome.ok) => generatePages env base l2 fs1
      | r => r := by
  induction l1 generalizing fs with
  | nil => simp [generatePages]
  | cons hd tl ih =>
    obtain ⟨p, ctx⟩ := hd
    simp only [List.cons_append, generatePages]
    by_cases h1 : parseFiles env (templateFiles base p) = true
    · simp only [h1, if_true]
      by_cases h2 : env.createOk (p ++ ".html") = true
      · simp only [h2, if_true]
        cases hex : pageExec env base (templateFiles base p) ctx with
        | some out => simp [ih]
        | none => simp
      · simp [h2]
    · simp [h1]

theorem generatePages_ok_iff (env : TmplEnv) (base : Option (List (String × Value)))
    (pages : List (String × Value)) (fs : FS) :
    (generatePages env base pages fs).2 = Outcome.ok ↔
      ∀ pc ∈ pages, pageOk env base pc.1 pc.2 := by
  induction pages generalizing fs with
  | nil => simp [generatePages]
  | cons hd tl ih =>
    obtain ⟨p, ctx⟩ := hd
    simp only [generatePages]
    by_cases h1 : parseFiles env (templateFiles base p) = true
    · simp only [h1, if_true]
      by_cases h2 : env.createOk (p ++ ".html") = true
      · simp only [h2, if_true]
        cases hex : pageExec env base (templateFiles base p) ctx with
        | some out =>
          rw [ih]
          constructor
          · intro h pc hpc
            rcases List.mem_cons.1 hpc with heq | hmem
            · cases heq
              exact ⟨h1, h2, by simp [hex]⟩
            · exact h pc hmem
          · intro h pc hpc
            exact h pc (List.mem_cons_of_mem _ hpc)
        | none =>
          apply iff_of_false
          · simp
          · intro hall
            exact (hall (p, ctx) (List.mem_cons_self _ _)).2.2 hex
      · apply iff_of_false
        · simp [h2]
        · intro hall
          exact h2 (hall (p, ctx) (List.mem_cons_self _ _)).2.1
    · apply iff_of_false
      · simp [h1]
      · intro hall
        exact h1 (hall (p, ctx) (List.mem_cons_self _ _)).1

theorem generatePages_lookup_of_not_target (env : TmplEnv)
    (base : Option (List (String × Value))) (pages : List (String × Value)) (fs : FS)
    (q : String) (hq : ∀ pc ∈ pages, pc.1 ++ ".html" ≠ q) :
    fsLookup (generatePages env base pages fs).1 q = fsLookup fs q := by
  induction pages generalizing fs with
  | nil => rfl
  | cons hd tl ih =>
    obtain ⟨p, ctx⟩ := hd
    have hp : p ++ ".html" ≠ q := hq (p, ctx) (List.mem_cons_self _ _)
    have htl : ∀ pc ∈ tl, pc.1 ++ ".html" ≠ q :=
      fun pc hpc => hq pc (List.mem_cons_of_mem _ hpc)
    simp only [generatePages]
    by_cases h1 : parseFiles env (templateFiles base p) = true
    · simp only [h1, if_true]
      by_cases h2 : env.createOk (p ++ ".html") = true
      · simp only [h2, if_true]
        cases hex : pageExec env base (templateFiles base p) ctx with
        | some out =>
          rw [ih _ htl]
          simp [fsLookup_fsWrite, hp]
        | none => simp [fsLookup_fsWrite, hp]
      · simp [h2]
    · simp [h1]

theorem generatePages_lookup_of_mem (env : TmplEnv)
    (base : Option (List (String × Value))) (pages : List (String × Value))
    (p : String) (ctx : Value) (hmem : (p, ctx) ∈ pages)
    (hnd : (pages.map Prod.fst).Nodup)
    (hok : ∀ pc ∈ pages, pageOk env base pc.1 pc.2) (fs : FS) :
    fsLookup (generatePages env base pages fs).1 (p ++ ".html") =
      some (pageContent env base p ctx) := by
  induction pages generalizing fs with
  | nil => cases hmem
  | cons hd tl ih =>
    obtain ⟨a, actx⟩ := hd
    simp only [List.map_cons, List.nodup_cons] at hnd
    obtain ⟨hh1, hh2, hh3⟩ := hok (a, actx) (List.mem_cons_self _ _)
    rcases List.mem_cons.1 hmem with heq | hmem'
    · cases heq
      simp only [generatePages, hh1, if_true, hh2]
      cases hex : pageExec env base (templateFiles base p) ctx with
      | none => exact absurd hex hh3
      | some out =>
        have hnot : ∀ pc ∈ tl, pc.1 ++ ".html" ≠ p ++ ".html" := by
          intro pc hpc hcon
          exact hnd.1 (appendHtml_inj hcon ▸ List.mem_map_of_mem Prod.fst hpc)
        rw [generatePages_lookup_of_not_target _ _ _ _ _ hnot]
        simp [fsLookup_fsWrite, pageContent, hex]
    · simp only [generatePages, hh1, if_true, hh2]
      cases hex : pageExec env base (templateFiles base a) actx with
      | none => exact absurd hex hh3
      | some out =>
        exact ih hmem' hnd.2
          (fun pc hpc => hok pc (List.mem_cons_of_mem _ hpc)) _

theorem renderItems_append (env : TmplEnv) (base : Option (List (String × Value)))
    (files : List String) (l1 l2 : List Value) (fs : FS) (tr : List (String × String)) :
    renderItems env base files (l1 ++ l2) fs tr =
      match renderItems env base files l1 fs tr with
      | (fs1, tr1, Outcome.ok) => renderItems env base files l2 fs1 tr1
      | r => r := by
  induction l1 generalizing fs tr with
  | nil => simp [renderItems]
  | cons hd tl ih =>
    simp only [List.cons_append, renderItems]
    cases hof : outputFileOf hd with
    | error p => simp
    | ok o =>
      cases o with
      | none => simp [ih]
      | some name =>
        by_cases hc : env.createOk name = true
        · simp only [hc, if_true]
          cases hex : itemExec env base files hd with
          | some out => simp [ih]
          | none => simp
        · simp [hc]

theorem generateCollections_append (env : TmplEnv)
    (base : Option (List (String × Value))) (l1 l2 : List (String × Value))
    (fs : FS) (tr : List (String × String)) :
    generateCollections env base (l1 ++ l2) fs tr =
      match generateCollections env base l1 fs tr with
      | (fs1, tr1, Outcome.ok) => generateCollections env base l2 fs1 tr1
      | r => r := by
  induction l1 generalizing fs tr with
  | nil => simp [generateCollections]
  | cons hd tl ih =>
    obtain ⟨g, d⟩ := hd
    simp only [List.cons_append, generateCollections]
    cases hgi : getItems d with
    | error p => simp
    | ok o =>
      cases o with
      | none => simp [ih]
      | some itemsList =>
        by_cases hp : parseFiles env (templateFiles base g) = true
        · simp only [hp, if_true]
          rcases hri : renderItems env base (templateFiles base g) itemsList fs tr with
            ⟨fs1, tr1, outc⟩
          cases outc <;> simp [ih]
        · simp [hp]

theorem renderItems_ok_iff (env : TmplEnv) (base : Option (List (String × Value)))
    (files : List String) (itemsList : List Value) (fs : FS)
    (tr : List (String × String)) :
    (renderItems env base files itemsList fs tr).2.2 = Outcome.ok ↔
      ∀ i ∈ itemsList, itemOk env base files i := by
  induction itemsList generalizing fs tr with
  | nil => simp [renderItems]
  | cons hd tl ih =>
    simp only [renderItems]
    cases hof : outputFileOf hd with
    | error p =>
      apply iff_of_false
      · simp
      · intro hall
        have := hall hd (List.mem_cons_self _ _)
        simp [itemOk, hof] at this
    | ok o =>
      cases o with
      | none =>
        rw [ih]
        constructor
        · intro h i hi
          rcases List.mem_cons.1 hi with heq | hm
          · subst heq
            simp [itemOk, hof]
          · exact h i hm
        · intro h i hi
          exact h i (List.mem_cons_of_mem _ hi)
      | some name =>
        by_cases hc : env.createOk name = true
        · simp only [hc, if_true]
          cases hex : itemExec env base files hd with
          | some out =>
            rw [ih]
            constructor
            · intro h i hi
              rcases List.mem_cons.1 hi with heq | hm
              · subst heq
                simp [itemOk, hof, hc, hex]
              · exact h i hm
            · intro h i hi
              exact h i (List.mem_cons_of_mem _ hi)
          | none =>
            apply iff_of_false
            · simp
            · intro hall
              have := hall hd (List.mem_cons_self _ _)
              simp [itemOk, hof, hex] at this
        · apply iff_of_false
          · simp [hc]
          · intro hall
            have := hall hd (List.mem_cons_self _ _)
            simp [itemOk, hof, hc] at this

theorem generateCollections_ok_iff (env : TmplEnv)
    (base : Option (List (String × Value))) (cols : List (String × Value))
    (fs : FS) (tr : List (String × String)) :
    (generateCollections env base cols fs tr).2.2 = Outcome.ok ↔
      ∀ c ∈ cols, colOk env base c := by
  induction cols generalizing fs tr with
  | nil => simp [generateCollections]
  | cons hd tl ih =>
    obtain ⟨g, d⟩ := hd
    simp only [generateCollections]
    cases hgi : getItems d with
    | error p =>
      apply iff_of_false
      · simp
      · intro hall
        have := hall (g, d) (List.mem_cons_self _ _)
        simp [colOk, hgi] at this
    | ok o =>
      cases o with
      | none =>
        rw [ih]
        constructor
        · intro h c hc
          rcases List.mem_cons.1 hc with heq | hm
          · subst heq
            simp [colOk, hgi]
          · exact h c hm
        · intro h c hc
          exact h c (List.mem_cons_of_mem _ hc)
      | some itemsList =>
        by_cases hp : parseFiles env (templateFiles base g) = true
        · simp only [hp, if_true]
          rcases hri : renderItems env base (templateFiles base g) itemsList fs tr with
            ⟨fs1, tr1, outc⟩
          cases outc with
          | ok =>
            have hallitems : ∀ i ∈ itemsList, itemOk env base (templateFiles base g) i := by
              have h2 := (renderItems_ok_iff env base (templateFiles base g)
                itemsList fs tr).1 (by rw [hri])
              exact h2
            rw [ih]
            constructor
            · intro h c hc
              rcases List.mem_cons.1 hc with heq | hm
              · subst heq
                simp only [colOk, hgi]
                exact ⟨hp, hallitems⟩
              · exact h c hm
            · intro h c hc
              exact h c (List.mem_cons_of_mem _ hc)
          | fatal e =>
            apply iff_of_false
            · simp
            · intro hall
              have hcol := hall (g, d) (List.mem_cons_self _ _)
              simp only [colOk, hgi] at hcol
              have h2 := (renderItems_ok_iff env base (templateFiles base g)
                itemsList fs tr).2 hcol.2
              rw [hri] at h2
              simp at h2
          | panicked =>
            apply iff_of_false
            · simp
            · intro hall
              have hcol := hall (g, d) (List.mem_cons_self _ _)
              simp only [colOk, hgi] at hcol
              have h2 := (renderItems_ok_iff env base (templateFiles base g)
                itemsList fs tr).2 hcol.2
              rw [hri] at h2
              simp at h2
        · apply iff_of_false
          · simp [hp]
          · intro hall
            have := hall (g, d) (List.mem_cons_self _ _)
            simp [colOk, hgi, hp] at this

theorem renderItems_lookup_of_not_target (env : TmplEnv)
    (base : Option (List (String × Value))) (files : List String)
    (itemsList : List Value) (fs : FS) (tr : List (String × String)) (q : String)
    (hq : ∀ i ∈ itemsList, itemTarget i ≠ some q) :
    fsLookup (renderItems env base files itemsList fs tr).1 q = fsLookup fs q := by
  induction itemsList generalizing fs tr with
  | nil => rfl
  | cons hd tl ih =>
    have hh := hq hd (List.mem_cons_self _ _)
    have htl : ∀ i ∈ tl, itemTarget i ≠ some q :=
      fun i hi => hq i (List.mem_cons_of_mem _ hi)
    simp only [renderItems]
    cases hof : outputFileOf hd with
    | error p => rfl
    | ok o =>
      cases o with
      | none => exact ih fs tr htl
      | some name =>
        have hnq : name ≠ q := by
          intro hcon
          exact hh (by simp [itemTarget, hof, hcon])
        by_cases hc : env.createOk name = true
        · simp only [hc, if_true]
          cases hex : itemExec env base files hd with
          | some out =>
            rw [ih _ _ htl]
            simp [fsLookup_fsWrite, hnq]
          | none => simp [fsLookup_fsWrite, hnq]
        · simp [hc]

theorem renderItems_lookup_of_ok (env : TmplEnv)
    (base : Option (List (String × Value))) (files : List String) (q : String)
    (itemsList : List Value) (fs : FS) (tr : List (String × String))
    (hok : ∀ i ∈ itemsList, itemOk env base files i) :
    fsLookup (renderItems env base files itemsList fs tr).1 q =
      match itemsContentAt env base files q itemsList with
      | some c => some c
      | none => fsLookup fs q := by
  induction itemsList generalizing fs tr with
  | nil => simp [renderItems, itemsContentAt]
  | cons hd tl ih =>
    have hh := hok hd (List.mem_cons_self _ _)
    have htl : ∀ i ∈ tl, itemOk env base files i :=
      fun i hi => hok i (List.mem_cons_of_mem _ hi)
    simp only [renderItems, itemsContentAt]
    cases hof : outputFileOf hd with
    | error p => simp [itemOk, hof] at hh
    | ok o =>
      cases o with
      | none =>
        rw [ih _ _ htl]
        have ht : itemTarget hd = none := by simp [itemTarget, hof]
        cases hca : itemsContentAt env base files q tl <;> simp [hca, ht]
      | some name =>
        have hh' : env.createOk name = true ∧ itemExec env base files hd ≠ none := by
          simpa [itemOk, hof] using hh
        simp only [hh'.1, if_true]
        cases hex : itemExec env base files hd with
        | none => exact absurd hex hh'.2
        | some out =>
          rw [ih _ _ htl]
          have ht : itemTarget hd = some name := by simp [itemTarget, hof]
          cases hca : itemsContentAt env base files q tl with
          | some c => simp [hca]
          | none =>
            simp only [hca, fsLookup_fsWrite, lookupKV_insertKV, ht, itemContent, hex]
            by_cases hnq : name = q
            · simp [hnq, fsLookup_fsWrite]
            · simp [hnq, fsLookup_fsWrite]

theorem itemsContentAt_isSome (env : TmplEnv)
    (base : Option (List (String × Value))) (files : List String) (q : String)
    (itemsList : List Value) :
    (itemsContentAt env base files q itemsList).isSome = true ↔
      q ∈ itemsList.filterMap itemTarget := by
  induction itemsList with
  | nil => simp [itemsContentAt]
  | cons hd tl ih =>
    simp only [itemsContentAt]
    cases ht : itemTarget hd with
    | none =>
      cases hca : itemsContentAt env base files q tl with
      | some c =>
        rw [hca] at ih
        simp only [List.filterMap_cons, ht]
        simpa using ih
      | none =>
        rw [hca] at ih
        simp only [List.filterMap_cons, ht]
        simpa [ht] using ih
    | some t =>
      cases hca : itemsContentAt env base files q tl with
      | some c =>
        rw [hca] at ih
        simp only [List.filterMap_cons, ht, List.mem_cons]
        simp only [Option.isSome_some, true_iff] at ih
        simp [ih]
      | none =>
        rw [hca] at ih
        simp only [List.filterMap_cons, ht, List.mem_cons]
        simp only [Option.isSome_none, false_iff] at ih
        by_cases htq : t = q
        · simp [htq]
        · simp [htq, ih]
          intro h
          exact absurd h.symm htq

theorem renderItems_trace_of_ok (env : TmplEnv)
    (base : Option (List (String × Value))) (files : List String)
    (itemsList : List Value) (fs : FS) (tr : List (String × String))
    (hok : ∀ i ∈ itemsList, itemOk env base files i) :
    (renderItems env base files itemsList fs tr).2.1 =
      tr ++ itemsList.filterMap (fun i =>
        (itemTarget i).map (fun name => (name, itemContent env base files i))) := by
  induction itemsList generalizing fs tr with
  | nil => simp [renderItems]
  | cons hd tl ih =>
    have hh := hok hd (List.mem_cons_self _ _)
    have htl : ∀ i ∈ tl, itemOk env base files i :=
      fun i hi => hok i (List.mem_cons_of_mem _ hi)
    simp only [renderItems]
    cases hof : outputFileOf hd with
    | error p => simp [itemOk, hof] at hh
    | ok o =>
      cases o with
      | none =>
        rw [ih _ _ htl]
        simp [List.filterMap_cons, itemTarget, hof]
      | some name =>
        have hh' : env.createOk name = true ∧ itemExec env base files hd ≠ none := by
          simpa [itemOk, hof] using hh
        simp only [hh'.1, if_true]
        cases hex : itemExec env base files hd with
        | none => exact absurd hex hh'.2
        | some out =>
          rw [ih _ _ htl]
          simp [List.filterMap_cons, itemTarget, hof, itemContent, hex]

theorem generateCollections_lookup_of_not_target (env : TmplEnv)
    (base : Option (List (String × Value))) (cols : List (String × Value))
    (fs : FS) (tr : List (String × String)) (q : String)
    (hq : ∀ c ∈ cols, q ∉ colTargets c) :
    fsLookup (generateCollections env base cols fs tr).1 q = fsLookup fs q := by
  induction cols generalizing fs tr with
  | nil => rfl
  | cons hd tl ih =>
    obtain ⟨g, d⟩ := hd
    have hh := hq (g, d) (List.mem_cons_self _ _)
    have htl : ∀ c ∈ tl, q ∉ colTargets c :=
      fun c hc => hq c (List.mem_cons_of_mem _ hc)
    simp only [generateCollections]
    cases hgi : getItems d with
    | error p => rfl
    | ok o =>
      cases o with
      | none => exact ih fs tr htl
      | some itemsList =>
        have hitems : colItemsOf (g, d) = itemsList := by simp [colItemsOf, hgi]
        have hqi : ∀ i ∈ itemsList, itemTarget i ≠ some q := by
          intro i hi hcon
          apply hh
          simp only [colTargets, hitems]
          exact List.mem_filterMap.2 ⟨i, hi, hcon⟩
        by_cases hp : parseFiles env (templateFiles base g) = true
        · simp only [hp, if_true]
          rcases hri : renderItems env base (templateFiles base g) itemsList fs tr with
            ⟨fs1, tr1, outc⟩
          have hlook : fsLookup fs1 q = fsLookup fs q := by
            have h2 := renderItems_lookup_of_not_target env base (templateFiles base g)
              itemsList fs tr q hqi
            rw [hri] at h2
            exact h2
          cases outc with
          | ok =>
            rw [ih fs1 tr1 htl]
            exact hlook
          | fatal e => exact hlook
          | panicked => exact hlook
        · simp [hp]

theorem generateCollections_lookup_of_target (env : TmplEnv)
    (base : Option (List (String × Value))) (cols : List (String × Value))
    (c0 : String × Value) (hc0 : c0 ∈ cols) (q : String) (hq : q ∈ colTargets c0)
    (hdisj : cols.Pairwise (fun c c' => ∀ x, x ∈ colTargets c → x ∉ colTargets c'))
    (hok : ∀ c ∈ cols, colOk env base c) (fs : FS) (tr : List (String × String)) :
    fsLookup (generateCollections env base cols fs tr).1 q =
      itemsContentAt env base (templateFiles base c0.1) q (colItemsOf c0) := by
  induction cols generalizing fs tr with
  | nil => cases hc0
  | cons hd tl ih =>
    obtain ⟨g, d⟩ := hd
    rw [List.pairwise_cons] at hdisj
    have hcolok := hok (g, d) (List.mem_cons_self _ _)
    have htlok : ∀ c ∈ tl, colOk env base c :=
      fun c hc => hok c (List.mem_cons_of_mem _ hc)
    rcases List.mem_cons.1 hc0 with heq | hm
    · cases heq
      cases hgi : getItems d with
      | error p => exact absurd hcolok (by simp [colOk, hgi])
      | ok o =>
        cases o with
        | none =>
          exfalso
          rw [show colTargets (g, d) = [] from by simp [colTargets, colItemsOf, hgi]] at hq
          cases hq
        | some itemsList =>
          have hitems : colItemsOf (g, d) = itemsList := by simp [colItemsOf, hgi]
          have hcol : parseFiles env (templateFiles base g) = true ∧
              ∀ i ∈ itemsList, itemOk env base (templateFiles base g) i := by
            simpa [colOk, hgi] using hcolok
          simp only [generateCollections, hgi, hcol.1, if_true]
          rcases hri : renderItems env base (templateFiles base g) itemsList fs tr with
            ⟨fs1, tr1, outc⟩
          have houtc : outc = Outcome.ok := by
            have h2 := (renderItems_ok_iff env base (templateFiles base g)
              itemsList fs tr).2 hcol.2
            rw [hri] at h2
            exact h2
          subst houtc
          have htlq : ∀ c ∈ tl, q ∉ colTargets c := fun c hc => hdisj.1 c hc q hq
          rw [generateCollections_lookup_of_not_target env base tl fs1 tr1 q htlq]
          have hlook := renderItems_lookup_of_ok env base (templateFiles base g) q
            itemsList fs tr hcol.2
          rw [hri] at hlook
          rw [hitems]
          cases hca : itemsContentAt env base (templateFiles base g) q itemsList with
          | none =>
            exfalso
            have hmemf : q ∈ itemsList.filterMap itemTarget := by
              simpa [colTargets, hitems] using hq
            have hsome := (itemsContentAt_isSome env base (templateFiles base g) q
              itemsList).2 hmemf
            rw [hca] at hsome
            simp at hsome
          | some c =>
            rw [hca] at hlook
            exact hlook
    · simp only [generateCollections]
      cases hgi : getItems d with
      | error p => exact absurd hcolok (by simp [colOk, hgi])
      | ok o =>
        cases o with
        | none => exact ih hm hdisj.2 htlok fs tr
        | some itemsList =>
          have hcol : parseFiles env (templateFiles base g) = true ∧
              ∀ i ∈ itemsList, itemOk env base (templateFiles base g) i := by
            simpa [colOk, hgi] using hcolok
          simp only [hcol.1, if_true]
          rcases hri : renderItems env base (templateFiles base g) itemsList fs tr with
            ⟨fs1, tr1, outc⟩
          have houtc : outc = Outcome.ok := by
            have h2 := (renderItems_ok_iff env base (templateFiles base g)
              itemsList fs tr).2 hcol.2
            rw [hri] at h2
            exact h2
          subst houtc
          exact ih hm hdisj.2 htlok fs1 tr1

/-- Claim C1: with `base` present and a mapping page context, the render
context passed to template execution contains the key `"base"` bound to the
Configuration's base map plus every key of the page context at top level, the
page context's value winning on any key collision — in particular a page field
literally named `base` silently overwrites the reserved `"base"` entry. -/
theorem c1_base_present_merge (b m : List (String × Value))
    (hnd : (m.map Prod.fst).Nodup) (k : String) :
    ctxLookup (pageRenderData (some b) (Value.vmap m)) k =
      match lookupKV k m with
      | some v => some v
      | none => if k = "base" then some (Value.vmap b) else none := by
  simp only [pageRenderData, ctxLookup, buildData]
  rw [lookupKV_foldl_insert k m hnd]
  cases hkv : lookupKV k m with
  | some v => simp
  | none =>
    simp only [lookupKV]
    by_cases h : k = "base"
    · rw [if_pos h.symm, if_pos h]
    · rw [if_neg (fun hh => h hh.symm), if_neg h]

/-- Claim C1 witness: a page field literally named `base` overwrites the
reserved entry. -/
theorem c1_base_present_merge_witness :
    ctxLookup (pageRenderData (some [("site", Value.vstr "S")])
        (Value.vmap [("title", Value.vstr "T"), ("base", Value.vstr "X")])) "base" =
      some (Value.vstr "X") := by
  have h := c1_base_present_merge [("site", Value.vstr "S")]
    [("title", Value.vstr "T"), ("base", Value.vstr "X")] (by decide) "base"
  exact h.trans rfl

/-- Claim C2: with `base` absent, merging is the identity on the page context
and `generatePages` executes the page template with the raw context value
passed unchanged. -/
theorem c2_base_absent_identity :
    (∀ override : Value, pageRenderData none override = override) ∧
      ∀ (env : TmplEnv) (p : String) (ctx : Value) (fs : FS) (out : String),
        parseFiles env (templateFiles none p) = true →
        env.createOk (p ++ ".html") = true →
        env.execute (templateFiles none p) ctx = some out →
        generatePages env none [(p, ctx)] fs =
          (fsWrite (fsWrite fs (p ++ ".html") "") (p ++ ".html") out, Outcome.ok) := by
  constructor
  · intro override
    rfl
  · intro env p ctx fs out h1 h2 h3
    simp [generatePages, h1, h2, pageExec, h3]

/-- Claim C2 witness. -/
theorem c2_base_absent_identity_witness :
    generatePages envAllOk none [("index", Value.vstr "raw")] [] =
      (fsWrite (fsWrite [] ("index" ++ ".html") "") ("index" ++ ".html") "RAW",
        Outcome.ok) :=
  c2_base_absent_identity.2 envAllOk "index" (Value.vstr "raw") [] "RAW" rfl rfl rfl

/-- Claim C3: with `base` present and a non-mapping page context, the render
context contains only the `"base"` entry — the non-mapping context contributes
nothing. -/
theorem c3_base_present_nonmapping (b : List (String × Value)) (ctx : Value)
    (h : ∀ m, ctx ≠ Value.vmap m) :
    pageRenderData (some b) ctx = Value.vmap [("base", Value.vmap b)] := by
  cases ctx with
  | vmap m => exact absurd rfl (h m)
  | vnull => rfl
  | vbool x => rfl
  | vint x => rfl
  | vstr x => rfl
  | vlist x => rfl

/-- Claim C3 witness: a scalar page context. -/
theorem c3_base_present_nonmapping_witness :
    pageRenderData (some [("site", Value.vstr "S")]) (Value.vstr "scalar") =
      Value.vmap [("base", Value.vmap [("site", Value.vstr "S")])] :=
  c3_base_present_nonmapping [("site", Value.vstr "S")] (Value.vstr "scalar")
    (fun _ h => Value.noConfusion h)

/-- Claim C4: the render context built for a collection item equals the render
context built for a page with the same context value, in both the
base-present and base-absent branches (the two merge routines are
extensionally equal). -/
theorem c4_page_item_merge_agree (base : Option (List (String × Value)))
    (ctx : Value) : pageRenderData base ctx = itemRenderData base ctx := by
  cases base with
  | none => rfl
  | some b => cases ctx <;> rfl

/-- Claim C5 counterexample: a collection whose value is the scalar `"bad"`
(not a mapping) does not get skipped silently — the nested type assertion
panics, aborting the run, and the well-formed sibling collection is never
rendered. -/
theorem c5_counterexample :
    generateCollections envAllOk none [("a", Value.vstr "bad"), ("b", colGood)] [] [] =
      ([], [], Outcome.panicked) := rfl

/-- Claim C5 (amended): a collection whose value is a mapping without an
`items` sequence is skipped silently — the run equals the run without that
collection (no output, no error, siblings unaffected); but a collection whose
value is not a mapping at all makes the renderer panic, aborting the run after
the collections preceding it. -/
theorem c5_amended_collection_skip (env : TmplEnv)
    (base : Option (List (String × Value))) (g : String) (d : Value) :
    (getItems d = Except.ok none →
      ∀ (pre post : List (String × Value)) (fs : FS) (tr : List (String × String)),
        generateCollections env base (pre ++ (g, d) :: post) fs tr =
          generateCollections env base (pre ++ post) fs tr) ∧
    (getItems d = Except.error GoPanic.interfaceConversion →
      ∀ (pre post : List (String × Value)) (fs : FS) (tr : List (String × String)),
        generateCollections env base (pre ++ (g, d) :: post) fs tr =
          match generateCollections env base pre fs tr with
          | (fs1, tr1, Outcome.ok) => (fs1, tr1, Outcome.panicked)
          | r => r) := by
  constructor
  · intro h pre post fs tr
    rw [generateCollections_append, generateCollections_append]
    rcases hpre : generateCollections env base pre fs tr with ⟨fs1, tr1, outc⟩
    cases outc with
    | ok => simp [generateCollections, h]
    | fatal e => simp
    | panicked => simp
  · intro h pre post fs tr
    rw [generateCollections_append]
    rcases hpre : generateCollections env base pre fs tr with ⟨fs1, tr1, outc⟩
    cases outc with
    | ok => simp [generateCollections, h]
    | fatal e => simp
    | panicked => simp

/-- Claim C5 witness: a mapping-shaped collection without `items` is skipped,
with the sibling collection unaffected. -/
theorem c5_amended_collection_skip_witness :
    generateCollections envAllOk none
        ([] ++ ("empty", Value.vmap []) :: [("b", colGood)]) [] [] =
      generateCollections envAllOk none ([] ++ [("b", colGood)]) [] [] :=
  (c5_amended_collection_skip envAllOk none "empty" (Value.vmap [])).1 rfl
    [] [("b", colGood)] [] []

/-- Claim C6 counterexample: an item that is not a mapping (and hence lacks an
`output_file` field) is not skipped silently — the nested type assertion
panics, aborting the run, and the well-formed sibling item is never
rendered. -/
theorem c6_counterexample :
    generateCollections envAllOk none
        [("posts", Value.vmap [("items", Value.vlist [Value.vstr "oops",
          Value.vmap [("output_file", Value.vstr "good.html")]])])] [] [] =
      ([], [], Outcome.panicked) := rfl

/-- Claim C6 (amended): a mapping item without an `output_file` field, or with
a non-string `output_file` value, is skipped silently — the item loop equals
the loop without that item, so sibling items still render; but an item that is
not a mapping at all makes the renderer panic, aborting the run after the
items preceding it. -/
theorem c6_amended_item_skip (env : TmplEnv)
    (base : Option (List (String × Value))) (files : List String) (item : Value) :
    (outputFileOf item = Except.ok none →
      ∀ (pre post : List Value) (fs : FS) (tr : List (String × String)),
        renderItems env base files (pre ++ item :: post) fs tr =
          renderItems env base files (pre ++ post) fs tr) ∧
    (outputFileOf item = Except.error GoPanic.interfaceConversion →
      ∀ (pre post : List Value) (fs : FS) (tr : List (String × String)),
        renderItems env base files (pre ++ item :: post) fs tr =
          match renderItems env base files pre fs tr with
          | (fs1, tr1, Outcome.ok) => (fs1, tr1, Outcome.panicked)
          | r => r) := by
  constructor
  · intro h pre post fs tr
    rw [renderItems_append, renderItems_append]
    rcases hpre : renderItems env base files pre fs tr with ⟨fs1, tr1, outc⟩
    cases outc with
    | ok => simp [renderItems, h]
    | fatal e => simp
    | panicked => simp
  · intro h pre post fs tr
    rw [renderItems_append]
    rcases hpre : renderItems env base files pre fs tr with ⟨fs1, tr1, outc⟩
    cases outc with
    | ok => simp [renderItems, h]
    | fatal e => simp
    | panicked => simp

/-- Claim C6 witness: the spec's scenario — a second item lacking
`output_file` is skipped while its sibling renders. -/
theorem c6_amended_item_skip_witness :
    renderItems envAllOk none ["posts.html"]
        ([Value.vmap [("output_file", Value.vstr "p1.html")]] ++
          Value.vmap [("title", Value.vstr "B")] :: []) [] [] =
      renderItems envAllOk none ["posts.html"]
        ([Value.vmap [("output_file", Value.vstr "p1.html")]] ++ []) [] [] :=
  (c6_amended_item_skip envAllOk none ["posts.html"]
      (Value.vmap [("title", Value.vstr "B")])).1 rfl
    [Value.vmap [("output_file", Value.vstr "p1.html")]] [] [] []

/-- Claim C7: a declared page whose own template file — or, with `base`
present, whose `base.html` — is missing on disk makes the run fail with a
parse error naming that page; pages after the failing one are not rendered and
the collection stage is never reached (fail-fast, not best-effort). -/
theorem c7_missing_template_fail_fast (env : TmplEnv)
    (base : Option (List (String × Value))) (p : String) (ctx : Value)
    (pre post cols : List (String × Value)) (fs fs1 : FS)
    (hmiss : (templateFiles base p).all env.tmplExists = false)
    (hpre : generatePages env base pre fs = (fs1, Outcome.ok)) :
    generateSite env base (pre ++ (p, ctx) :: post) cols fs =
      (fs1, [], Outcome.fatal (RenderErr.parsePage p)) := by
  have hparse : parseFiles env (templateFiles base p) = false := by
    simp [parseFiles, hmiss]
  unfold generateSite
  rw [generatePages_append, hpre]
  simp [generatePages, hparse]

/-- Claim C7 witness: one declared page, empty template directory. -/
theorem c7_missing_template_fail_fast_witness :
    generateSite envNoTemplates none [("index", Value.vnull)] [("c", colGood)] [] =
      ([], [], Outcome.fatal (RenderErr.parsePage "index")) :=
  c7_missing_template_fail_fast envNoTemplates none "index" Value.vnull
    [] [] [("c", colGood)] [] [] rfl rfl

/-- Claim C8 (code bug): a failure inside the recursive assets walk — here a
file whose read fails — produces a WalkDir error, yet `copyAssets` still
returns `nil`: the error is silently discarded instead of being propagated to
the fatal check in `main`, contradicting the all-errors-fatal policy. -/
theorem c8_copyassets_swallows_error :
    walkAssets [AssetEntry.fileEntry false true] = some "read" ∧
      copyAssets { srcExists := true, entries := [AssetEntry.fileEntry false true] } =
        none :=
  ⟨rfl, rfl⟩

/-- Claim C9 counterexample: two distinct collections writing the same
`output_file` (`x.html`) through different templates — both enumeration orders
succeed, yet they leave different contents in `x.html`, so a successful run's
outputs do depend on the collections-map iteration order. -/
theorem c9_counterexample :
    (generateCollections envHeadContent none [("a", colToX), ("b", colToX)] [] []).2.2 =
        Outcome.ok ∧
      (generateCollections envHeadContent none [("b", colToX), ("a", colToX)] [] []).2.2 =
        Outcome.ok ∧
      fsLookup (generateCollections envHeadContent none
          [("a", colToX), ("b", colToX)] [] []).1 "x.html" ≠
        fsLookup (generateCollections envHeadContent none
          [("b", colToX), ("a", colToX)] [] []).1 "x.html" :=
  ⟨rfl, rfl, by decide⟩

/-- Claim C9 (amended): for successful runs, page outputs are independent of
the pages-map iteration order; collection outputs are independent of the
collections-map iteration order provided no two distinct collections target a
common output file (the counterexample shows this proviso is necessary); and
within a single collection, items are rendered exactly in the items sequence's
order. -/
theorem c9_amended_order_independence (env : TmplEnv)
    (base : Option (List (String × Value))) :
    (∀ (pages pages' : List (String × Value)) (fs : FS) (q : String),
      pages.Perm pages' → (pages.map Prod.fst).Nodup →
      (generatePages env base pages fs).2 = Outcome.ok →
      (generatePages env base pages' fs).2 = Outcome.ok ∧
        fsLookup (generatePages env base pages fs).1 q =
          fsLookup (generatePages env base pages' fs).1 q) ∧
    (∀ (cols cols' : List (String × Value)) (fs : FS) (q : String),
      cols.Perm cols' →
      cols.Pairwise (fun c c' => ∀ x, x ∈ colTargets c → x ∉ colTargets c') →
      (generateCollections env base cols fs []).2.2 = Outcome.ok →
      (generateCollections env base cols' fs []).2.2 = Outcome.ok ∧
        fsLookup (generateCollections env base cols fs []).1 q =
          fsLookup (generateCollections env base cols' fs []).1 q) ∧
    (∀ (files : List String) (itemsList : List Value) (fs : FS)
        (tr : List (String × String)),
      (renderItems env base files itemsList fs tr).2.2 = Outcome.ok →
      (renderItems env base files itemsList fs tr).2.1 =
        tr ++ itemsList.filterMap (fun i =>
          (itemTarget i).map (fun name => (name, itemContent env base files i)))) := by
  refine ⟨?_, ?_, ?_⟩
  · intro pages pages' fs q hperm hnd hok
    have hallok : ∀ pc ∈ pages, pageOk env base pc.1 pc.2 :=
      (generatePages_ok_iff env base pages fs).1 hok
    have hallok' : ∀ pc ∈ pages', pageOk env base pc.1 pc.2 :=
      fun pc hpc => hallok pc (hperm.mem_iff.mpr hpc)
    have hok' : (generatePages env base pages' fs).2 = Outcome.ok :=
      (generatePages_ok_iff env base pages' fs).2 hallok'
    refine ⟨hok', ?_⟩
    have hnd' : (pages'.map Prod.fst).Nodup := ((hperm.map Prod.fst).nodup_iff).1 hnd
    by_cases hex : ∃ pc ∈ pages, pc.1 ++ ".html" = q
    · obtain ⟨⟨p, ctx⟩, hmem, hpath⟩ := hex
      subst hpath
      rw [generatePages_lookup_of_mem env base pages p ctx hmem hnd hallok fs,
        generatePages_lookup_of_mem env base pages' p ctx (hperm.mem_iff.mp hmem)
          hnd' hallok' fs]
    · push_neg at hex
      rw [generatePages_lookup_of_not_target env base pages fs q hex,
        generatePages_lookup_of_not_target env base pages' fs q
          (fun pc hpc => hex pc (hperm.mem_iff.mpr hpc))]
  · intro cols cols' fs q hperm hdisj hok
    have hallok : ∀ c ∈ cols, colOk env base c :=
      (generateCollections_ok_iff env base cols fs []).1 hok
    have hallok' : ∀ c ∈ cols', colOk env base c :=
      fun c hc => hallok c (hperm.mem_iff.mpr hc)
    have hok' : (generateCollections env base cols' fs []).2.2 = Outcome.ok :=
      (generateCollections_ok_iff env base cols' fs []).2 hallok'
    refine ⟨hok', ?_⟩
    have hsymm : Symmetric
        (fun c c' : String × Value => ∀ x, x ∈ colTargets c → x ∉ colTargets c') := by
      intro c c' h x hx hx'
      exact h x hx' hx
    have hdisj' := (hperm.pairwise_iff (fun hab => hsymm hab)).mp hdisj
    by_cases hex : ∃ c ∈ cols, q ∈ colTargets c
    · obtain ⟨c0, hc0, hq⟩ := hex
      rw [generateCollections_lookup_of_target env base cols c0 hc0 q hq hdisj
          hallok fs [],
        generateCollections_lookup_of_target env base cols' c0 (hperm.mem_iff.mp hc0)
          q hq hdisj' hallok' fs []]
    · push_neg at hex
      rw [generateCollections_lookup_of_not_target env base cols fs [] q hex,
        generateCollections_lookup_of_not_target env base cols' fs [] q
          (fun c hc => hex c (hperm.mem_iff.mpr hc))]
  · intro files itemsList fs tr hok
    exact renderItems_trace_of_ok env base files itemsList fs tr
      ((renderItems_ok_iff env base files itemsList fs tr).1 hok)

/-- Claim C9 witness: two pages in both orders render successfully with equal
content at `a.html`. -/
theorem c9_amended_order_independence_witness :
    (generatePages envAllOk none
        [("b", Value.vnull), ("a", Value.vnull)] []).2 = Outcome.ok ∧
      fsLookup (generatePages envAllOk none
          [("a", Value.vnull), ("b", Value.vnull)] []).1 "a.html" =
        fsLookup (generatePages envAllOk none
          [("b", Value.vnull), ("a", Value.vnull)] []).1 "a.html" :=
  (c9_amended_order_independence envAllOk none).1
    [("a", Value.vnull), ("b", Value.vnull)] [("b", Value.vnull), ("a", Value.vnull)]
    [] "a.html" (List.Perm.swap ("b", Value.vnull) ("a", Value.vnull) [])
    (by decide) rfl

/-- Claim C10: when a page's (resp. item's) templates parse but execution
fails, the output file has already been created — truncated to empty — before
execution, so the fatal abort leaves that file on disk. -/
theorem c10_output_created_before_exec (env : TmplEnv)
    (base : Option (List (String × Value))) :
    (∀ (p : String) (ctx : Value) (rest : List (String × Value)) (fs : FS),
      parseFiles env (templateFiles base p) = true →
      env.createOk (p ++ ".html") = true →
      pageExec env base (templateFiles base p) ctx = none →
      generatePages env base ((p, ctx) :: rest) fs =
          (fsWrite fs (p ++ ".html") "", Outcome.fatal (RenderErr.execPage p)) ∧
        fsLookup (generatePages env base ((p, ctx) :: rest) fs).1 (p ++ ".html") =
          some "") ∧
    (∀ (files : List String) (item : Value) (name : String) (rest : List Value)
        (fs : FS) (tr : List (String × String)),
      outputFileOf item = Except.ok (some name) →
      env.createOk name = true →
      itemExec env base files item = none →
      renderItems env base files (item :: rest) fs tr =
          (fsWrite fs name "", tr, Outcome.fatal (RenderErr.execItem name)) ∧
        fsLookup (renderItems env base files (item :: rest) fs tr).1 name =
          some "") := by
  constructor
  · intro p ctx rest fs h1 h2 h3
    have heq : generatePages env base ((p, ctx) :: rest) fs =
        (fsWrite fs (p ++ ".html") "", Outcome.fatal (RenderErr.execPage p)) := by
      simp [generatePages, h1, h2, h3]
    refine ⟨heq, ?_⟩
    rw [heq]
    simp [fsLookup_fsWrite]
  · intro files item name rest fs tr h1 h2 h3
    have heq : renderItems env base files (item :: rest) fs tr =
        (fsWrite fs name "", tr, Outcome.fatal (RenderErr.execItem name)) := by
      simp [renderItems, h1, h2, h3]
    refine ⟨heq, ?_⟩
    rw [heq]
    simp [fsLookup_fsWrite]

/-- Claim C10 witness: a page whose execution fails leaves the truncated
`index.html` behind. -/
theorem c10_output_created_before_exec_witness :
    generatePages envExecFails none [("index", Value.vnull)] [] =
        (fsWrite [] ("index" ++ ".html") "",
          Outcome.fatal (RenderErr.execPage "index")) ∧
      fsLookup (generatePages envExecFails none [("index", Value.vnull)] []).1
        ("index" ++ ".html") = some "" :=
  (c10_output_created_before_exec envExecFails none).1 "index" Value.vnull [] []
    rfl rfl rfl

end PortfolioBuilder
